import Mathlib

/-!
Verification of the Numerus language core (Roman-numeral codec, lexer,
parser, environment and evaluator) against its specification.

The Rust sources are shallowly embedded: `i32` values are modelled as
`Int` with the range `[-2^31, 2^31 - 1]` made explicit wherever the code
relies on checked or overflowing machine arithmetic, fallible functions
return `Except`, and the mutable interpreter state is threaded
explicitly.
-/

namespace Numerus

/-- Lower bound of the Rust `i32` type. -/
def i32Min : Int := -2147483648

/-- Upper bound of the Rust `i32` type. -/
def i32Max : Int := 2147483647

/-- Predicate: the integer fits in the Rust `i32` type. -/
def fitsI32 (n : Int) : Prop := i32Min ≤ n ∧ n ≤ i32Max

instance : DecidablePred fitsI32 := fun n => by unfold fitsI32; infer_instance

/-- Decidable equality for `Except`, used to settle concrete runs of the
embedded fallible functions by `decide`. -/
instance {ε α : Type _} [DecidableEq ε] [DecidableEq α] :
    DecidableEq (Except ε α) := fun x y =>
  match x, y with
  | .ok a, .ok b =>
    if h : a = b then .isTrue (by rw [h]) else .isFalse (by simp [h])
  | .error a, .error b =>
    if h : a = b then .isTrue (by rw [h]) else .isFalse (by simp [h])
  | .ok _, .error _ => .isFalse (by simp)
  | .error _, .ok _ => .isFalse (by simp)

/-! ## Roman codec (src/roman/converter.rs) -/

/-- Error type of the Roman codec, mirroring `RomanError`. -/
inductive RomanError where
  | NegativeOrZero (n : Int)
  | Overflow (n : Int)
  | Empty
  | InvalidCharacter (ch : Char)
  | InvalidRepetition (ch : Char)
  | TooManyRepetitions (ch : Char)
  | InvalidSubtractive (s : String)
  | NonCanonical (got expected : String)
  deriving Repr, DecidableEq

/-- The fixed descending table `ROMAN_VALUES` of 13 (value, symbol) pairs. -/
def ROMAN_VALUES : List (Int × String) :=
  [(1000, "M"), (900, "CM"), (500, "D"), (400, "CD"), (100, "C"),
   (90, "XC"), (50, "L"), (40, "XL"), (10, "X"), (9, "IX"),
   (5, "V"), (4, "IV"), (1, "I")]

/-- Inner `while n >= value` loop of `to_roman`: repeatedly subtract
`value` and append `symbol` while it still fits.  The loop is expressed
with a fuel argument; `to_roman` only reaches it with `1 ≤ n ≤ 3999` and
`1 ≤ value`, so a fuel of 4000 can never be exhausted. -/
def greedyRun (value : Int) (symbol : String) : Nat → Int → String × Int
  | 0, n => ("", n)
  | fuel + 1, n =>
    if value ≤ n then
      let rest := greedyRun value symbol fuel (n - value)
      (symbol ++ rest.1, rest.2)
    else ("", n)

/-- Outer `for (value, symbol) in ROMAN_VALUES` loop of `to_roman`. -/
def toRomanGo : List (Int × String) → Int → String
  | [], _ => ""
  | (value, symbol) :: rest, n =>
    let step := greedyRun value symbol 4000 n
    step.1 ++ toRomanGo rest step.2

/-- Embedding of `to_roman`: convert an integer in 1..=3999 to the
canonical Roman numeral string by the greedy algorithm. -/
def toRoman (n : Int) : Except RomanError String :=
  if n ≤ 0 then .error (.NegativeOrZero n)
  else if n > 3999 then .error (.Overflow n)
  else .ok (toRomanGo ROMAN_VALUES n)

/-- Uppercasing as used by `from_roman`'s `to_uppercase()`: map
`Char.toUpper` over the characters.  (Rust's Unicode uppercasing agrees
with this on the ASCII inputs the language ever produces.) -/
def strToUpper (s : String) : String := ⟨s.data.map Char.toUpper⟩

/-- Character values used by `from_roman` (`I`=1 … `M`=1000). -/
def romanCharValue : Char → Option Int
  | 'I' => some 1
  | 'V' => some 5
  | 'X' => some 10
  | 'L' => some 50
  | 'C' => some 100
  | 'D' => some 500
  | 'M' => some 1000
  | _ => none

/-- The six canonical subtractive pairs accepted by `from_roman`. -/
def validSubtractive (value prevValue : Int) : Bool :=
  (value = 1 ∧ prevValue = 5) ∨ (value = 1 ∧ prevValue = 10) ∨
  (value = 10 ∧ prevValue = 50) ∨ (value = 10 ∧ prevValue = 100) ∨
  (value = 100 ∧ prevValue = 500) ∨ (value = 100 ∧ prevValue = 1000)

/-- Mutable loop state of `from_roman`: running total, value of the
previously handled (right-neighbour) character, current consecutive
repetition count and the previous character. -/
structure FromRomanState where
  total : Int
  prevValue : Int
  consecutiveCount : Nat
  prevChar : Option Char
  deriving Repr, DecidableEq

/-- One iteration of `from_roman`'s right-to-left scan, for character
`ch`; `su` is the uppercased input (used in the subtractive error). -/
def fromRomanStep (su : String) (st : FromRomanState) (ch : Char) :
    Except RomanError FromRomanState := do
  let value ←
    match romanCharValue ch with
    | some v => pure v
    | none => throw (.InvalidCharacter ch)
  let consecutiveCount ←
    match st.prevChar with
    | some prev =>
      if prev = ch then
        let c := st.consecutiveCount + 1
        if ch = 'V' ∨ ch = 'L' ∨ ch = 'D' then
          throw (.InvalidRepetition ch)
        else if (ch = 'I' ∨ ch = 'X' ∨ ch = 'C' ∨ ch = 'M') ∧ c > 3 then
          throw (.TooManyRepetitions ch)
        else
          pure c
      else
        pure 1
    | none => pure st.consecutiveCount
  let total ←
    if value < st.prevValue then
      if validSubtractive value st.prevValue then
        pure (st.total - value)
      else
        throw (.InvalidSubtractive su)
    else
      pure (st.total + value)
  pure ⟨total, value, consecutiveCount, some ch⟩

/-- The full right-to-left scan loop of `from_roman`. -/
def fromRomanLoop (su : String) : List Char → FromRomanState →
    Except RomanError FromRomanState
  | [], st => .ok st
  | ch :: rest, st => do
    let st' ← fromRomanStep su st ch
    fromRomanLoop su rest st'

/-- Embedding of `from_roman`: case-insensitive scan right-to-left with
repetition and subtractive-pair checks, then the final canonicity check
that re-encodes the total — skipped (`if let Ok`) when the re-encoding
itself fails. -/
def fromRoman (s : String) : Except RomanError Int :=
  if s.isEmpty then .error .Empty
  else
    let su := strToUpper s
    match fromRomanLoop su su.data.reverse ⟨0, 0, 1, none⟩ with
    | .error e => .error e
    | .ok st =>
      match toRoman st.total with
      | .ok reconverted =>
        if reconverted ≠ su then .error (.NonCanonical su reconverted)
        else .ok st.total
      | .error _ => .ok st.total

/-- Embedding of `looks_like_roman`: non-empty and all characters among
`I V X L C D M`. -/
def looksLikeRoman (s : String) : Bool :=
  !s.isEmpty && s.data.all fun c => (romanCharValue c).isSome

/-! ## Spans and errors (src/lexer/span.rs is absent from the sources;
src/error/error.rs) -/

/-- Modelled from the spec: the file `src/lexer/span.rs` (declared by
`mod span;`) is missing from the sources.  Per the spec a `Span` is
"byte start/end offsets plus 1-based line and column of the first
character"; `stop` models the Rust field `end` (a Lean keyword). -/
structure Span where
  start : Nat
  stop : Nat
  line : Nat
  column : Nat
  deriving Repr, DecidableEq

/-- Modelled from the spec: `Span::point` — a zero-width span at one
position (used for the end-of-input token). -/
def Span.point (pos line column : Nat) : Span := ⟨pos, pos, line, column⟩

/-- Modelled from the spec: "spans of compound nodes are the merge
(min start, max end) of their children's spans"; line/column are taken
from the span whose first character comes first. -/
def Span.merge (a b : Span) : Span :=
  if a.start ≤ b.start then
    ⟨min a.start b.start, max a.stop b.stop, a.line, a.column⟩
  else
    ⟨min a.start b.start, max a.stop b.stop, b.line, b.column⟩

/-- Error type mirroring `NumerusError` in src/error/error.rs. -/
inductive NumerusError where
  | UnexpectedCharacter (ch : Char) (line column : Nat)
  | InvalidRomanNumeral (numeral : String) (span : Span)
  | UnterminatedString (line : Nat)
  | NumberOutOfRange (value : Int) (span : Span)
  | UnexpectedToken (expected found : String) (span : Span)
  | ExpectedExpression (after : String) (span : Span)
  | UnclosedParenthesis (openingSpan : Span)
  | UnexpectedEndOfInput
  | ExpectedIdentifier (span : Span)
  | UndefinedVariable (name : String)
  | VariableAlreadyDeclared (name : String)
  | DivisionByZero (span : Span)
  | NegativeRomanConversion (value : Int)
  | RomanOverflow (value : Int)
  | IntegerOverflow (value : Int)
  | TypeMismatch (operation expected : String) (span : Span)
  | InvalidFunctionArgument (name : String) (span : Span)
  deriving Repr, DecidableEq

/-! ## Tokens (src/lexer/token.rs) -/

/-- Token kinds, mirroring `TokenKind`. -/
inductive TokenKind where
  | Declara | Est | Addius | Subtrahe | Multiplica | Divide
  | Scribe | Avtem
  | Romaniza | Arabiza | Exprime
  | ArabicLiteral (value : Int)
  | RomanLiteral (value : Int)
  | StringLiteral (value : String)
  | Identifier (name : String)
  | LeftParen | RightParen | LeftBrace | RightBrace | Comma
  | Comment (text : String)
  | Newline
  | Eof
  deriving Repr, DecidableEq

/-- Embedding of `TokenKind::is_additive`. -/
def TokenKind.isAdditive : TokenKind → Bool
  | .Addius | .Subtrahe => true
  | _ => false

/-- Embedding of `TokenKind::is_multiplicative`. -/
def TokenKind.isMultiplicative : TokenKind → Bool
  | .Multiplica | .Divide => true
  | _ => false

/-- Embedding of `TokenKind::name` (also the `Display` output used in
parser error messages). -/
def TokenKind.name : TokenKind → String
  | .Declara => "DECLARA"
  | .Est => "EST"
  | .Addius => "ADDIUS"
  | .Subtrahe => "SUBTRAHE"
  | .Multiplica => "MULTIPLICA"
  | .Divide => "DIVIDE"
  | .Scribe => "SCRIBE"
  | .Avtem => "AVTEM"
  | .Romaniza => "ROMANIZA"
  | .Arabiza => "ARABIZA"
  | .Exprime => "EXPRIME"
  | .ArabicLiteral _ => "numerus Arabicus"
  | .RomanLiteral _ => "numerus Romanus"
  | .StringLiteral _ => "string"
  | .Identifier _ => "identificator"
  | .LeftParen => "("
  | .RightParen => ")"
  | .LeftBrace => "\x7b"
  | .RightBrace => "\x7d"
  | .Comma => ","
  | .Comment _ => "NOTA"
  | .Newline => "linea nova"
  | .Eof => "finis"

/-- Constructor tag, modelling `std::mem::discriminant` comparisons in
the parser's `check`/`expect_token`. -/
def TokenKind.tag : TokenKind → Nat
  | .Declara => 0 | .Est => 1 | .Addius => 2 | .Subtrahe => 3
  | .Multiplica => 4 | .Divide => 5 | .Scribe => 6 | .Avtem => 7
  | .Romaniza => 8 | .Arabiza => 9 | .Exprime => 10
  | .ArabicLiteral _ => 11 | .RomanLiteral _ => 12
  | .StringLiteral _ => 13 | .Identifier _ => 14
  | .LeftParen => 15 | .RightParen => 16 | .LeftBrace => 17
  | .RightBrace => 18 | .Comma => 19 | .Comment _ => 20
  | .Newline => 21 | .Eof => 22

/-- Token, mirroring `Token` (kind + span + raw lexeme). -/
structure Token where
  kind : TokenKind
  span : Span
  lexeme : String
  deriving Repr, DecidableEq

example : toRoman 42 = .ok "XLII" := by decide
example : toRoman 1999 = .ok "MCMXCIX" := by decide
example : toRoman 0 = .error (.NegativeOrZero 0) := by decide
example : fromRoman "XLII" = .ok 42 := by decide
example : fromRoman "xiv" = .ok 14 := by decide
example : fromRoman "IIII" = .error (.TooManyRepetitions 'I') := by decide
example : fromRoman "VX" = .error (.InvalidSubtractive "VX") := by decide
example : fromRoman "XIIX" = .error (.NonCanonical "XIIX" "XX") := by decide

/-! ## Lexer (src/lexer/lexer.rs)

The `Lexer` struct's mutable cursor (`chars`, `current_pos`, `line`,
`column`) is threaded explicitly as `LexState`; every scanning loop is
structural recursion over the remaining characters. -/

/-- Cursor state of the lexer: remaining characters, byte offset just
past the last consumed character, and 1-based line/column. -/
structure LexState where
  rest : List Char
  currentPos : Nat
  line : Nat
  column : Nat
  deriving Repr, DecidableEq

/-- Initial lexer state for an input string. -/
def LexState.init (input : String) : LexState := ⟨input.data, 0, 1, 1⟩

/-- Embedding of `Lexer::advance`: consume one character, moving the
byte offset by its UTF-8 size and the column by one. -/
def LexState.advance (st : LexState) : LexState :=
  match st.rest with
  | [] => st
  | c :: rest => ⟨rest, st.currentPos + c.utf8Size, st.line, st.column + 1⟩

/-- Loop body of `Lexer::skip_whitespace`, structural over the
remaining characters. -/
def skipWhitespaceGo : List Char → Nat → Nat → Nat → LexState
  | [], pos, line, col => ⟨[], pos, line, col⟩
  | c :: rest, pos, line, col =>
    if c = ' ' ∨ c = '\t' ∨ c = '\r' then
      skipWhitespaceGo rest (pos + c.utf8Size) line (col + 1)
    else ⟨c :: rest, pos, line, col⟩

/-- Embedding of `Lexer::skip_whitespace`: skip spaces, tabs and
carriage returns (not newlines). -/
def skipWhitespace (st : LexState) : LexState :=
  skipWhitespaceGo st.rest st.currentPos st.line st.column

/-- Result of a maximal-run scan: the scanned characters and the state
after them. -/
structure ScanOut where
  lexeme : List Char
  after : LexState
  deriving Repr, DecidableEq

/-- Loop body of the maximal-run scans, structural over the remaining
characters. -/
def scanWhileGo (keep : Char → Bool) : List Char → Nat → Nat → Nat → ScanOut
  | [], pos, line, col => ⟨[], ⟨[], pos, line, col⟩⟩
  | c :: rest, pos, line, col =>
    if keep c then
      let r := scanWhileGo keep rest (pos + c.utf8Size) line (col + 1)
      ⟨c :: r.lexeme, r.after⟩
    else ⟨[], ⟨c :: rest, pos, line, col⟩⟩

/-- Maximal run of characters satisfying `keep`, used for the
identifier scan (`is_ascii_alphanumeric() || ch == '_'`) and the digit
scan (`is_ascii_digit()`). -/
def scanWhile (keep : Char → Bool) (st : LexState) : ScanOut :=
  scanWhileGo keep st.rest st.currentPos st.line st.column

/-- Embedding of `Lexer::single_char_token`. -/
def singleCharToken (st : LexState) (kind : TokenKind) : Token × LexState :=
  let start := st.currentPos
  let col := st.column
  let ch := st.rest.headD ' '
  let st' := st.advance
  (⟨kind, ⟨start, st'.currentPos, st.line, col⟩, String.mk [ch]⟩, st')

/-- The fixed keyword table of `read_identifier_or_keyword`, followed by
the Roman-numeral disambiguation rule: a non-keyword name of length at
least 2 made only of `I V X L C D M` that `from_roman` accepts becomes a
`RomanLiteral`; everything else becomes an `Identifier`.  (The scanned
lexeme is always ASCII, so Lean's character count agrees with Rust's
byte length `lexeme.len()`.) -/
def classifyName (lexeme : String) : TokenKind :=
  if lexeme = "DECLARA" then .Declara
  else if lexeme = "EST" then .Est
  else if lexeme = "ADDIUS" then .Addius
  else if lexeme = "SUBTRAHE" then .Subtrahe
  else if lexeme = "MULTIPLICA" then .Multiplica
  else if lexeme = "DIVIDE" then .Divide
  else if lexeme = "SCRIBE" then .Scribe
  else if lexeme = "AVTEM" then .Avtem
  else if lexeme = "ROMANIZA" then .Romaniza
  else if lexeme = "ARABIZA" then .Arabiza
  else if lexeme = "EXPRIME" then .Exprime
  else if 2 ≤ lexeme.length ∧ looksLikeRoman lexeme then
    match fromRoman lexeme with
    | .ok value => .RomanLiteral value
    | .error _ => .Identifier lexeme
  else .Identifier lexeme

/-- List-level trim of Unicode whitespace, modelling Rust's
`str::trim` (the Substring-based `String.trim` of the Lean core library
does not reduce in the kernel). -/
def trimChars (l : List Char) : List Char :=
  ((l.dropWhile Char.isWhitespace).reverse.dropWhile Char.isWhitespace).reverse

/-- Embedding of `Lexer::read_comment` (after `NOTA:`): capture the rest
of the line, trimmed, as a `Comment` token. -/
def readComment (start startColumn : Nat) (st : LexState) : Token × LexState :=
  let r := scanWhile (fun ch => ch ≠ '\n') st
  let comment := String.mk r.lexeme
  (⟨.Comment (String.mk (trimChars r.lexeme)),
    ⟨start, r.after.currentPos, st.line, startColumn⟩,
    "NOTA: " ++ comment⟩, r.after)

/-- Embedding of `Lexer::read_identifier_or_keyword`. -/
def readIdentifierOrKeyword (st : LexState) : Token × LexState :=
  let start := st.currentPos
  let startColumn := st.column
  let r := scanWhile (fun ch => ch.isAlphanum || ch = '_') st
  let lexeme := String.mk r.lexeme
  let span : Span := ⟨start, r.after.currentPos, st.line, startColumn⟩
  if lexeme = "NOTA" ∧ r.after.rest.head? = some ':' then
    readComment start startColumn r.after.advance
  else
    (⟨classifyName lexeme, span, lexeme⟩, r.after)

/-- Largest value of the Rust `i64` type. -/
def i64Max : Int := 9223372036854775807

/-- Numeric value denoted by a run of decimal digits. -/
def digitsToNat (l : List Char) : Nat :=
  l.foldl (fun a c => a * 10 + (c.toNat - '0'.toNat)) 0

/-- Embedding of `Lexer::read_arabic_number`: scan a maximal digit run;
`lexeme.parse::<i64>().unwrap_or(0)` yields the denoted value when it
fits in an `i64` and 0 otherwise; values above 3999 fail with
`NumberOutOfRange`.  (`value as i32` is the identity on 0..=3999.) -/
def readArabicNumber (st : LexState) :
    Except NumerusError (Token × LexState) :=
  let start := st.currentPos
  let startColumn := st.column
  let r := scanWhile Char.isDigit st
  let span : Span := ⟨start, r.after.currentPos, st.line, startColumn⟩
  let value : Int :=
    if (digitsToNat r.lexeme : Int) ≤ i64Max then digitsToNat r.lexeme else 0
  if value > 3999 then .error (.NumberOutOfRange value span)
  else .ok (⟨.ArabicLiteral value, span, String.mk r.lexeme⟩, r.after)

/-- String-literal scan loop of `Lexer::read_string`: characters up to
an unescaped quote on the same line; end-of-line or end-of-input fails
with `UnterminatedString` naming the starting line. -/
def readStringGo (startLine : Nat) :
    List Char → Nat → Nat → Nat → Except NumerusError (List Char × LexState)
  | [], _, _, _ => .error (.UnterminatedString startLine)
  | c :: rest, pos, line, col =>
    if c = '"' then .ok ([], ⟨rest, pos + c.utf8Size, line, col + 1⟩)
    else if c = '\n' then .error (.UnterminatedString startLine)
    else
      match readStringGo startLine rest (pos + c.utf8Size) line (col + 1) with
      | .error e => .error e
      | .ok (content, st') => .ok (c :: content, st')

/-- Embedding of `Lexer::read_string`. -/
def readString (st : LexState) : Except NumerusError (Token × LexState) :=
  let start := st.currentPos
  let startColumn := st.column
  let startLine := st.line
  let st1 := st.advance
  match readStringGo startLine st1.rest st1.currentPos st1.line st1.column with
  | .error e => .error e
  | .ok (content, st') =>
    .ok (⟨.StringLiteral (String.mk content),
          ⟨start, st'.currentPos, st'.line, startColumn⟩,
          "\"" ++ String.mk content ++ "\""⟩, st')

/-- Start-of-identifier test of `next_token`'s
`'A'..='Z' | 'a'..='z' | '_'` arm. -/
def isIdentStart (c : Char) : Bool :=
  ('A' ≤ c ∧ c ≤ 'Z') ∨ ('a' ≤ c ∧ c ≤ 'z') ∨ c = '_'

/-- Embedding of `Lexer::next_token`: skip whitespace, then dispatch on
the next character; `(none, st)` with the post-whitespace state models
the `Ok(None)` end-of-input result. -/
def nextToken (st : LexState) :
    Except NumerusError (Option Token × LexState) :=
  let st := skipWhitespace st
  match st.rest with
  | [] => .ok (none, st)
  | ch :: _ =>
    if ch = '(' then
      let r := singleCharToken st .LeftParen
      .ok (some r.1, r.2)
    else if ch = ')' then
      let r := singleCharToken st .RightParen
      .ok (some r.1, r.2)
    else if ch = '{' then
      let r := singleCharToken st .LeftBrace
      .ok (some r.1, r.2)
    else if ch = '}' then
      let r := singleCharToken st .RightBrace
      .ok (some r.1, r.2)
    else if ch = ',' then
      let r := singleCharToken st .Comma
      .ok (some r.1, r.2)
    else if ch = '"' then
      match readString st with
      | .error e => .error e
      | .ok r => .ok (some r.1, r.2)
    else if ch = '\n' then
      let col := st.column
      let st' : LexState := ⟨st.rest.tail, st.currentPos + 1, st.line + 1, 1⟩
      .ok (some ⟨.Newline,
        ⟨st.currentPos, st.currentPos + 1, st'.line - 1, col⟩, "\n"⟩, st')
    else if isIdentStart ch then
      let r := readIdentifierOrKeyword st
      .ok (some r.1, r.2)
    else if ch.isDigit then
      match readArabicNumber st with
      | .error e => .error e
      | .ok r => .ok (some r.1, r.2)
    else .error (.UnexpectedCharacter ch st.line st.column)

/-- The `while let Some(token) = self.next_token()?` loop of
`Lexer::tokenize`: newline and comment tokens are filtered out, and an
`Eof` token at the final position closes the stream.  The fuel argument
only bounds the recursion; `tokenize` passes one more than the input
length, which a run can never exhaust since every produced token
consumes at least one character. -/
def tokenizeGo : Nat → LexState → List Token →
    Except NumerusError (List Token)
  | 0, st, acc =>
    .ok (acc ++ [⟨.Eof, Span.point st.currentPos st.line st.column, ""⟩])
  | fuel + 1, st, acc =>
    match nextToken st with
    | .error e => .error e
    | .ok (none, st') =>
      .ok (acc ++ [⟨.Eof, Span.point st'.currentPos st'.line st'.column, ""⟩])
    | .ok (some tok, st') =>
      match tok.kind with
      | .Newline | .Comment _ => tokenizeGo fuel st' acc
      | _ => tokenizeGo fuel st' (acc ++ [tok])

/-- Embedding of `Lexer::tokenize`. -/
def tokenize (input : String) : Except NumerusError (List Token) :=
  tokenizeGo (input.data.length + 1) (LexState.init input) []

/-! ## AST (src/parser/ast.rs) -/

/-- Whether a numeric literal was written in Arabic or Roman notation,
mirroring `NumberForm`. -/
inductive NumberForm where
  | Arabic
  | Roman
  deriving Repr, DecidableEq

/-- Binary operators, mirroring `BinaryOperator`. -/
inductive BinaryOperator where
  | Add
  | Subtract
  | Multiply
  | Divide
  deriving Repr, DecidableEq

/-- Built-in functions, mirroring `BuiltinFunction`. -/
inductive BuiltinFunction where
  | Romaniza
  | Arabiza
  | Exprime
  deriving Repr, DecidableEq

/-- Expression AST nodes, mirroring `Expression`. -/
inductive Expression where
  | NumberLiteral (value : Int) (originalForm : NumberForm) (span : Span)
  | StringLiteral (value : String) (span : Span)
  | Variable (name : String) (span : Span)
  | BinaryOp (left : Expression) (operator : BinaryOperator)
      (right : Expression) (span : Span)
  | Grouped (inner : Expression) (span : Span)
  | FunctionCall (function : BuiltinFunction) (argument : Expression)
      (span : Span)
  deriving Repr, DecidableEq

/-- Embedding of `Expression::span`. -/
def Expression.span : Expression → Span
  | .NumberLiteral _ _ span => span
  | .StringLiteral _ span => span
  | .Variable _ span => span
  | .BinaryOp _ _ _ span => span
  | .Grouped _ span => span
  | .FunctionCall _ _ span => span

/-- Statement AST nodes, mirroring `Statement`. -/
inductive Statement where
  | Declaration (name : String) (value : Expression) (span : Span)
  | Assignment (name : String) (value : Expression) (span : Span)
  | Print (value : Expression) (span : Span)
  | Avtem (span : Span)
  | Comment (text : String) (span : Span)
  deriving Repr, DecidableEq

/-- The program root, mirroring `Program`. -/
structure Program where
  statements : List Statement
  deriving Repr, DecidableEq

/-- Span-erased view of an expression, used to state parse-structure
properties independently of source positions. -/
inductive ExprShape where
  | num (value : Int)
  | str (s : String)
  | var (name : String)
  | bin (left : ExprShape) (operator : BinaryOperator) (right : ExprShape)
  | group (inner : ExprShape)
  | call (function : BuiltinFunction) (argument : ExprShape)
  deriving Repr, DecidableEq

/-- Erase the spans (and literal origin) of an expression. -/
def Expression.shape : Expression → ExprShape
  | .NumberLiteral value _ _ => .num value
  | .StringLiteral value _ => .str value
  | .Variable name _ => .var name
  | .BinaryOp left operator right _ => .bin left.shape operator right.shape
  | .Grouped inner _ => .group inner.shape
  | .FunctionCall function argument _ => .call function argument.shape

/-! ## Parser (src/parser/parser.rs)

The `Parser` struct is a token vector plus a cursor index.  The
mutually recursive expression grammar is embedded with an explicit fuel
argument that strictly decreases on every internal call, so that the
definitions reduce in the kernel; entry points pass fuel that a run can
never exhaust (each level of descent or loop iteration consumes one
unit, and every factor consumes at least one token). -/

/-- Parser state: the token vector and the `current` index. -/
structure ParserState where
  tokens : List Token
  current : Nat
  deriving Repr, DecidableEq

/-- Default token for out-of-bounds indexing; unreachable because the
token stream always ends in `Eof` and the cursor never passes it. -/
def defaultToken : Token := ⟨.Eof, Span.point 0 0 0, ""⟩

/-- Embedding of `Parser::peek`. -/
def ParserState.peek (p : ParserState) : Token :=
  p.tokens.getD p.current defaultToken

/-- Embedding of `Parser::previous` (`current.saturating_sub(1)`). -/
def ParserState.previousTok (p : ParserState) : Token :=
  p.tokens.getD (p.current - 1) defaultToken

/-- Embedding of `Parser::is_at_end`. -/
def ParserState.isAtEnd (p : ParserState) : Bool :=
  p.peek.kind.tag = TokenKind.Eof.tag

/-- Embedding of `Parser::advance`: step the cursor unless at `Eof`,
returning the token just passed. -/
def ParserState.advance (p : ParserState) : Token × ParserState :=
  let p' := if p.isAtEnd then p else { p with current := p.current + 1 }
  (p'.previousTok, p')

/-- Embedding of `Parser::expect_token` (`mem::discriminant`
comparison, with `Display` names in the error). -/
def expectToken (p : ParserState) (expected : TokenKind) :
    Except NumerusError (Token × ParserState) :=
  if p.peek.kind.tag = expected.tag then .ok p.advance
  else .error (.UnexpectedToken expected.name p.peek.kind.name p.peek.span)

/-- Embedding of `Parser::expect_identifier`. -/
def expectIdentifier (p : ParserState) :
    Except NumerusError (String × ParserState) :=
  match p.peek.kind with
  | .Identifier name => .ok (name, p.advance.2)
  | _ => .error (.ExpectedIdentifier p.peek.span)

mutual

/-- Embedding of `Parser::parse_expression` (`expression ::=
additive`). -/
def parseExpressionGo : Nat → ParserState →
    Except NumerusError (Expression × ParserState)
  | 0, _ => .error .UnexpectedEndOfInput
  | fuel + 1, p => parseAdditiveGo fuel p

/-- Embedding of `Parser::parse_additive`. -/
def parseAdditiveGo : Nat → ParserState →
    Except NumerusError (Expression × ParserState)
  | 0, _ => .error .UnexpectedEndOfInput
  | fuel + 1, p =>
    match parseMultiplicativeGo fuel p with
    | .error e => .error e
    | .ok (left, p') => parseAdditiveLoop fuel left p'

/-- The `while self.peek().kind.is_additive()` loop of
`parse_additive`. -/
def parseAdditiveLoop : Nat → Expression → ParserState →
    Except NumerusError (Expression × ParserState)
  | 0, _, _ => .error .UnexpectedEndOfInput
  | fuel + 1, left, p =>
    if p.peek.kind.isAdditive then
      let r := p.advance
      let operator : BinaryOperator :=
        if r.1.kind = .Addius then .Add else .Subtract
      match parseMultiplicativeGo fuel r.2 with
      | .error e => .error e
      | .ok (right, p') =>
        parseAdditiveLoop fuel
          (.BinaryOp left operator right (left.span.merge right.span)) p'
    else .ok (left, p)

/-- Embedding of `Parser::parse_multiplicative`. -/
def parseMultiplicativeGo : Nat → ParserState →
    Except NumerusError (Expression × ParserState)
  | 0, _ => .error .UnexpectedEndOfInput
  | fuel + 1, p =>
    match parseFactorGo fuel p with
    | .error e => .error e
    | .ok (left, p') => parseMultiplicativeLoop fuel left p'

/-- The `while self.peek().kind.is_multiplicative()` loop of
`parse_multiplicative`. -/
def parseMultiplicativeLoop : Nat → Expression → ParserState →
    Except NumerusError (Expression × ParserState)
  | 0, _, _ => .error .UnexpectedEndOfInput
  | fuel + 1, left, p =>
    if p.peek.kind.isMultiplicative then
      let r := p.advance
      let operator : BinaryOperator :=
        if r.1.kind = .Multiplica then .Multiply else .Divide
      match parseFactorGo fuel r.2 with
      | .error e => .error e
      | .ok (right, p') =>
        parseMultiplicativeLoop fuel
          (.BinaryOp left operator right (left.span.merge right.span)) p'
    else .ok (left, p)

/-- Embedding of `Parser::parse_factor`. -/
def parseFactorGo : Nat → ParserState →
    Except NumerusError (Expression × ParserState)
  | 0, _ => .error .UnexpectedEndOfInput
  | fuel + 1, p =>
    let token := p.peek
    match token.kind with
    | .ArabicLiteral n =>
      .ok (.NumberLiteral n .Arabic token.span, p.advance.2)
    | .RomanLiteral n =>
      .ok (.NumberLiteral n .Roman token.span, p.advance.2)
    | .StringLiteral s =>
      .ok (.StringLiteral s token.span, p.advance.2)
    | .Identifier name =>
      .ok (.Variable name token.span, p.advance.2)
    | .LeftParen =>
      let r := p.advance
      match parseExpressionGo fuel r.2 with
      | .error e => .error e
      | .ok (inner, p') =>
        match expectToken p' .RightParen with
        | .error e => .error e
        | .ok (close, p'') =>
          .ok (.Grouped inner (r.1.span.merge close.span), p'')
    | .Romaniza => parseFunctionCallGo fuel .Romaniza p
    | .Arabiza => parseFunctionCallGo fuel .Arabiza p
    | .Exprime => parseFunctionCallGo fuel .Exprime p
    | _ =>
      .error (.ExpectedExpression
        (if 0 < p.current then p.previousTok.kind.name else "start")
        token.span)

/-- Embedding of `Parser::parse_function_call`. -/
def parseFunctionCallGo : Nat → BuiltinFunction → ParserState →
    Except NumerusError (Expression × ParserState)
  | 0, _, _ => .error .UnexpectedEndOfInput
  | fuel + 1, function, p =>
    let r := p.advance
    match expectToken r.2 .LeftParen with
    | .error e => .error e
    | .ok (_, p') =>
      match parseExpressionGo fuel p' with
      | .error e => .error e
      | .ok (argument, p'') =>
        match expectToken p'' .RightParen with
        | .error e => .error e
        | .ok (close, p''') =>
          .ok (.FunctionCall function argument (r.1.span.merge close.span),
               p''')

end

/-- Fuel sufficient for any parse of the given token vector. -/
def parseFuel (tokens : List Token) : Nat := 16 * (tokens.length + 1) + 16

/-- Parse a single expression from a token stream (as
`Parser::parse_expression` on a fresh parser). -/
def parseExpression (tokens : List Token) :
    Except NumerusError (Expression × ParserState) :=
  parseExpressionGo (parseFuel tokens) ⟨tokens, 0⟩

/-- Embedding of `Parser::parse_declaration`
(`DECLARA <ident> EST <expr>`). -/
def parseDeclaration (fuel : Nat) (p : ParserState) :
    Except NumerusError (Statement × ParserState) :=
  let r := p.advance
  match expectIdentifier r.2 with
  | .error e => .error e
  | .ok (name, p') =>
    match expectToken p' .Est with
    | .error e => .error e
    | .ok (_, p'') =>
      match parseExpressionGo fuel p'' with
      | .error e => .error e
      | .ok (value, p''') =>
        .ok (.Declaration name value (r.1.span.merge value.span), p''')

/-- Embedding of `Parser::parse_assignment` (`<ident> EST <expr>`). -/
def parseAssignment (fuel : Nat) (p : ParserState) :
    Except NumerusError (Statement × ParserState) :=
  let r := p.advance
  match r.1.kind with
  | .Identifier name =>
    (match expectToken r.2 .Est with
     | .error e => .error e
     | .ok (_, p') =>
       match parseExpressionGo fuel p' with
       | .error e => .error e
       | .ok (value, p'') =>
         .ok (.Assignment name value (r.1.span.merge value.span), p''))
  | _ => .error (.ExpectedIdentifier r.1.span)

/-- Embedding of `Parser::parse_print` (`SCRIBE(<expr>)`). -/
def parsePrint (fuel : Nat) (p : ParserState) :
    Except NumerusError (Statement × ParserState) :=
  let r := p.advance
  match expectToken r.2 .LeftParen with
  | .error e => .error e
  | .ok (_, p') =>
    match parseExpressionGo fuel p' with
    | .error e => .error e
    | .ok (value, p'') =>
      match expectToken p'' .RightParen with
      | .error e => .error e
      | .ok (endTok, p''') =>
        .ok (.Print value (r.1.span.merge endTok.span), p''')

/-- Embedding of `Parser::parse_statement` dispatch. -/
def parseStatement (fuel : Nat) (p : ParserState) :
    Except NumerusError (Statement × ParserState) :=
  match p.peek.kind with
  | .Declara => parseDeclaration fuel p
  | .Scribe => parsePrint fuel p
  | .Avtem =>
    let r := p.advance
    .ok (.Avtem r.1.span, r.2)
  | .Comment text =>
    let r := p.advance
    .ok (.Comment text r.1.span, r.2)
  | .Identifier _ => parseAssignment fuel p
  | .Eof => .error .UnexpectedEndOfInput
  | other =>
    .error (.UnexpectedToken "DECLARA, SCRIBE, AVTEM, or identifier"
      other.name p.peek.span)

/-- The `while !self.is_at_end()` loop of `Parser::parse`. -/
def parseGo : Nat → ParserState → List Statement →
    Except NumerusError Program
  | 0, _, acc => .ok ⟨acc⟩
  | fuel + 1, p, acc =>
    if p.isAtEnd then .ok ⟨acc⟩
    else
      match parseStatement (parseFuel p.tokens) p with
      | .error e => .error e
      | .ok (stmt, p') => parseGo fuel p' (acc ++ [stmt])

/-- Embedding of `Parser::parse` on a fresh parser over the tokens. -/
def parseProgram (tokens : List Token) : Except NumerusError Program :=
  parseGo (tokens.length + 1) ⟨tokens, 0⟩ []

/-! ## Runtime values and environment (src/interpreter/environment.rs) -/

/-- Alias for the text type, usable inside the `Value` namespace where
the plain name resolves to the `Value.String` constructor. -/
abbrev Text := String

/-- Runtime values, mirroring `Value`. -/
inductive Value where
  | Number (n : Int)
  | String (s : Text)
  deriving Repr, DecidableEq

/-- Embedding of `Value::to_output_string`: strings pass through;
numbers must lie in 1..=3999 and are rendered via `to_roman` (whose
error, unreachable after the guards, is mapped to `RomanOverflow`). -/
def Value.toOutputString : Value → Except NumerusError Text
  | .String s => .ok s
  | .Number n =>
    if n ≤ 0 then .error (.NegativeRomanConversion n)
    else if n > 3999 then .error (.RomanOverflow n)
    else
      match toRoman n with
      | .ok s => .ok s
      | .error _ => .error (.RomanOverflow n)

/-- The variable store, mirroring `Environment`; the `HashMap` field
`variables` is modelled extensionally as the partial map `vars` from
names to values (`variables` is a reserved word in Lean). -/
structure Environment where
  vars : String → Option Value

/-- Embedding of `Environment::new`. -/
def Environment.new : Environment := ⟨fun _ => none⟩

/-- Embedding of `Environment::contains`
(`HashMap::contains_key`). -/
def Environment.contains (env : Environment) (name : String) : Bool :=
  (env.vars name).isSome

/-- Embedding of `Environment::declare`: fails if the name is already
present, otherwise inserts. -/
def Environment.declare (env : Environment) (name : String) (value : Value) :
    Except NumerusError Environment :=
  if env.contains name then .error (.VariableAlreadyDeclared name)
  else .ok ⟨fun k => if k = name then some value else env.vars k⟩

/-- Embedding of `Environment::assign`: fails if the name is absent,
otherwise overwrites. -/
def Environment.assign (env : Environment) (name : String) (value : Value) :
    Except NumerusError Environment :=
  if ¬env.contains name then .error (.UndefinedVariable name)
  else .ok ⟨fun k => if k = name then some value else env.vars k⟩

/-- Embedding of `Environment::get`. -/
def Environment.get (env : Environment) (name : String) :
    Except NumerusError Value :=
  match env.vars name with
  | some v => .ok v
  | none => .error (.UndefinedVariable name)

/-! ## Evaluator (src/interpreter/evaluator.rs) -/

/-- Result of evaluation: a value, a `NumerusError`, or a Rust panic
(the latter models the process abort of overflowing `i32` division,
which is not a `NumerusError`). -/
inductive EvalResult (α : Type) where
  | ok (a : α)
  | error (e : NumerusError)
  | panicked
  deriving Repr

instance {α : Type} [DecidableEq α] : DecidableEq (EvalResult α) := fun x y =>
  match x, y with
  | .ok a, .ok b =>
    if h : a = b then .isTrue (by rw [h]) else .isFalse (by simp [h])
  | .error a, .error b =>
    if h : a = b then .isTrue (by rw [h]) else .isFalse (by simp [h])
  | .panicked, .panicked => .isTrue rfl
  | .ok _, .error _ => .isFalse (by simp)
  | .ok _, .panicked => .isFalse (by simp)
  | .error _, .ok _ => .isFalse (by simp)
  | .error _, .panicked => .isFalse (by simp)
  | .panicked, .ok _ => .isFalse (by simp)
  | .panicked, .error _ => .isFalse (by simp)

/-- Errors and panics propagate; values flow on (the `?` operator). -/
instance : Monad EvalResult where
  pure := .ok
  bind x f :=
    match x with
    | .ok a => f a
    | .error e => .error e
    | .panicked => .panicked

/-- Lift an `Except` result (the `?` operator on a `Result`). -/
def EvalResult.ofExcept {α : Type} : Except NumerusError α → EvalResult α
  | .ok a => .ok a
  | .error e => .error e

/-- Whether the result is a value. -/
def EvalResult.isOk {α : Type} : EvalResult α → Bool
  | .ok _ => true
  | _ => false

/-- Embedding of `i32::checked_add` (on in-range operands). -/
def checkedAdd (a b : Int) : Option Int :=
  if fitsI32 (a + b) then some (a + b) else none

/-- Embedding of `i32::checked_sub` (on in-range operands). -/
def checkedSub (a b : Int) : Option Int :=
  if fitsI32 (a - b) then some (a - b) else none

/-- Embedding of `i32::checked_mul` (on in-range operands). -/
def checkedMul (a b : Int) : Option Int :=
  if fitsI32 (a * b) then some (a * b) else none

/-- Number-to-string conversion of the Add string cases:
`to_roman(n).unwrap_or_else(|_| n.to_string())`. -/
def numToDisplayString (n : Int) : String :=
  match toRoman n with
  | .ok s => s
  | .error _ => toString n

/-- The `match operator` arm of `evaluate_expression` for `BinaryOp`,
applied to the two operand values.  The overflow errors carry the exact
wider-precision result (`as i64` casts are exact on `i32` operands);
`a / b` is Rust `i32` division: truncation toward zero, with a panic
when the quotient `i32::MIN / -1` overflows. -/
def applyBinary (operator : BinaryOperator) (l r : Value) (span : Span) :
    EvalResult Value :=
  match operator with
  | .Add =>
    match l, r with
    | .Number a, .Number b =>
      (match checkedAdd a b with
       | some s => .ok (.Number s)
       | none => .error (.IntegerOverflow (a + b)))
    | .String a, .String b => .ok (.String (a ++ b))
    | .String a, .Number b => .ok (.String (a ++ numToDisplayString b))
    | .Number a, .String b => .ok (.String (numToDisplayString a ++ b))
  | .Subtract =>
    match l, r with
    | .Number a, .Number b =>
      (match checkedSub a b with
       | some s => .ok (.Number s)
       | none => .error (.IntegerOverflow (a - b)))
    | _, _ => .error (.TypeMismatch "SUBTRAHE" "numbers" span)
  | .Multiply =>
    match l, r with
    | .Number a, .Number b =>
      (match checkedMul a b with
       | some s => .ok (.Number s)
       | none => .error (.IntegerOverflow (a * b)))
    | _, _ => .error (.TypeMismatch "MULTIPLICA" "numbers" span)
  | .Divide =>
    match l, r with
    | .Number a, .Number b =>
      if b = 0 then .error (.DivisionByZero span)
      else if a = i32Min ∧ b = -1 then .panicked
      else .ok (.Number (a.tdiv b))
    | _, _ => .error (.TypeMismatch "DIVIDE" "numbers" span)

/-- The `match function` arm of `evaluate_expression` for
`FunctionCall`, applied to the argument value. -/
def applyBuiltin (function : BuiltinFunction) (argValue : Value)
    (span : Span) : EvalResult Value :=
  match function with
  | .Romaniza =>
    match argValue with
    | .Number n =>
      (match toRoman n with
       | .ok roman => .ok (.String roman)
       | .error _ => .error (.RomanOverflow n))
    | .String _ => .error (.TypeMismatch "ROMANIZA" "number" span)
  | .Arabiza =>
    match argValue with
    | .Number n => .ok (.String (toString n))
    | .String _ => .error (.TypeMismatch "ARABIZA" "number" span)
  | .Exprime => .ok argValue

/-- Embedding of `Interpreter::evaluate_expression`.  The Rust method
takes `&self`: it reads the environment and cannot modify it, which the
explicit read-only argument mirrors. -/
def evaluateExpression (env : Environment) : Expression → EvalResult Value
  | .NumberLiteral value _ _ => .ok (.Number value)
  | .StringLiteral value _ => .ok (.String value)
  | .Variable name _ => EvalResult.ofExcept (env.get name)
  | .BinaryOp left operator right span => do
    let l ← evaluateExpression env left
    let r ← evaluateExpression env right
    applyBinary operator l r span
  | .Grouped inner _ => evaluateExpression env inner
  | .FunctionCall function argument span => do
    let argValue ← evaluateExpression env argument
    applyBuiltin function argValue span

/-- Mutable interpreter state: the environment and the output buffer
(`Interpreter::env` and `Interpreter::output`). -/
structure InterpState where
  env : Environment
  output : List String

/-- Embedding of `Interpreter::execute_statement`. -/
def executeStatement (st : InterpState) : Statement → EvalResult InterpState
  | .Declaration name value _ => do
    let val ← evaluateExpression st.env value
    let env' ← EvalResult.ofExcept (st.env.declare name val)
    pure { st with env := env' }
  | .Assignment name value _ => do
    let val ← evaluateExpression st.env value
    let env' ← EvalResult.ofExcept (st.env.assign name val)
    pure { st with env := env' }
  | .Print value _ => do
    let val ← evaluateExpression st.env value
    let out ← EvalResult.ofExcept val.toOutputString
    pure { st with output := st.output ++ [out] }
  | .Avtem _ => pure st
  | .Comment _ _ => pure st

/-- The statement loop of `Interpreter::run`. -/
def runGo : List Statement → InterpState → EvalResult InterpState
  | [], st => .ok st
  | s :: rest, st =>
    match executeStatement st s with
    | .ok st' => runGo rest st'
    | .error e => .error e
    | .panicked => .panicked

/-- Embedding of `Interpreter::run`: clear the output buffer, then
execute the statements in order. -/
def runProgram (program : Program) (st : InterpState) :
    EvalResult InterpState :=
  runGo program.statements { st with output := [] }

/-- Lex, parse and run a source string in a fresh interpreter,
returning the collected output lines. -/
def runSource (input : String) : EvalResult (List String) := do
  let tokens ← EvalResult.ofExcept (tokenize input)
  let program ← EvalResult.ofExcept (parseProgram tokens)
  let st ← runProgram program ⟨Environment.new, []⟩
  pure st.output

/-- The lexer's keyword table as a list of names. -/
def keywordNames : List String :=
  ["DECLARA", "EST", "ADDIUS", "SUBTRAHE", "MULTIPLICA", "DIVIDE",
   "SCRIBE", "AVTEM", "ROMANIZA", "ARABIZA", "EXPRIME"]

/-- A sample environment with one binding, used in concrete witnesses. -/
def sampleEnv : Environment :=
  ⟨fun k => if k = "X" then some (.Number 42) else none⟩

/-- Boolean round-trip check for one integer: `to_roman` succeeds and
`from_roman` maps its output back to the input. -/
def roundTripOK (n : Int) : Bool :=
  match toRoman n with
  | .ok s => decide (fromRoman s = .ok n)
  | .error _ => false

/-! ## Helper lemmas -/

/-- Bind on a value applies the continuation. -/
@[simp] theorem EvalResult.bind_ok {α β : Type} (a : α)
    (f : α → EvalResult β) : (Bind.bind (EvalResult.ok a) f) = f a := rfl

/-- Bind on an error propagates the error. -/
@[simp] theorem EvalResult.bind_error {α β : Type} (e : NumerusError)
    (f : α → EvalResult β) :
    (Bind.bind (EvalResult.error e) f) = EvalResult.error e := rfl

/-- Bind on a panic propagates the panic. -/
@[simp] theorem EvalResult.bind_panicked {α β : Type}
    (f : α → EvalResult β) :
    (Bind.bind (EvalResult.panicked : EvalResult α) f) =
      EvalResult.panicked := rfl

/-- Pure wraps a value in `ok`. -/
@[simp] theorem EvalResult.pure_eq {α : Type} (a : α) :
    (Pure.pure a : EvalResult α) = EvalResult.ok a := rfl

/-- An in-range integer is encoded successfully by `to_roman`. -/
theorem toRoman_ok_of_range {n : Int} (h1 : 1 ≤ n) (h2 : n ≤ 3999) :
    toRoman n = .ok (toRomanGo ROMAN_VALUES n) := by
  unfold toRoman
  rw [if_neg (by omega), if_neg (by omega)]

/-! ## Claim theorems -/

/-- C1: the claim says every string accepted by `from_roman` re-encodes
(via `to_roman`) to the uppercased input, so non-canonical or
out-of-range-total inputs are always rejected.  The code violates this:
on "MMMCMMM" the right-to-left scan yields total 5900 without tripping
the local repetition/subtractive rules, the re-encoding of 5900 fails
with `Overflow`, the `if let Ok` canonicity check is skipped, and the
string is accepted with value 5900 — the lexer consequently even emits
a `RomanLiteral 5900` token, above the language's 3999 literal cap. -/
theorem c1_fromRoman_accepts_noncanonical :
    fromRoman "MMMCMMM" = .ok 5900 ∧
    toRoman 5900 = .error (.Overflow 5900) ∧
    tokenize "MMMCMMM" =
      .ok [⟨.RomanLiteral 5900, ⟨0, 7, 1, 1⟩, "MMMCMMM"⟩,
           ⟨.Eof, Span.point 7 1 8, ""⟩] := by
  refine ⟨by decide, by decide, by decide⟩

/-- C3: the claim says a maximal digit run whose denoted integer
exceeds 3999 always fails with a range error carrying the offending
value, for runs of any length.  The code violates this for runs beyond
the `i64` parse range: `lexeme.parse::<i64>().unwrap_or(0)` turns the
twenty-nines run (denoting 10^20 - 1 > 3999) into the value 0, which
passes the range check and is emitted as `ArabicLiteral 0`.  In-range
behaviour is as claimed: "4000" fails with the range error. -/
theorem c3_huge_digit_run_lexes_as_zero :
    digitsToNat "99999999999999999999".data = 99999999999999999999 ∧
    tokenize "99999999999999999999" =
      .ok [⟨.ArabicLiteral 0, ⟨0, 20, 1, 1⟩, "99999999999999999999"⟩,
           ⟨.Eof, Span.point 20 1 21, ""⟩] ∧
    tokenize "4000" = .error (.NumberOutOfRange 4000 ⟨0, 4, 1, 1⟩) := by
  refine ⟨by decide, by decide, by decide⟩

/-- C4 (amended): evaluating Divide on two number operands fails with
the dedicated division-by-zero error exactly when the divisor is 0, and
returns the quotient truncated toward zero for every other pair of i32
operands except (`i32::MIN`, -1), where the Rust division overflows and
the process panics. -/
theorem c4_divide_semantics (a b : Int) (sp : Span)
    (ha : fitsI32 a) (hb : fitsI32 b) :
    (b = 0 →
      applyBinary .Divide (.Number a) (.Number b) sp =
        .error (.DivisionByZero sp)) ∧
    (b ≠ 0 → ¬(a = i32Min ∧ b = -1) →
      applyBinary .Divide (.Number a) (.Number b) sp =
        .ok (.Number (a.tdiv b))) ∧
    (a = i32Min → b = -1 →
      applyBinary .Divide (.Number a) (.Number b) sp =
        .panicked) := by
  refine ⟨fun h0 => ?_, fun h0 hm => ?_, fun hA hB => ?_⟩
  · simp [applyBinary, h0]
  · simp [applyBinary, h0, hm]
  · subst hA hB
    simp [applyBinary, i32Min]

/-- Witness for C4: 42 DIVIDE 6 evaluates to 7. -/
theorem c4_divide_semantics_witness :
    applyBinary .Divide (.Number 42) (.Number 6) (Span.point 0 0 0) =
      .ok (.Number 7) := by
  have h :=
    (c4_divide_semantics 42 6 (Span.point 0 0 0) (by decide) (by decide)).2.1
      (by decide) (by decide)
  exact h.trans (by decide)

/-- Counterexample for C4 as stated: at the pair (`i32::MIN`, -1) the
evaluation does not return the truncated quotient — it panics. -/
theorem c4_min_div_neg_one_panics :
    applyBinary .Divide (.Number i32Min) (.Number (-1)) (Span.point 0 0 0) =
      .panicked ∧
    (applyBinary .Divide (.Number i32Min) (.Number (-1))
      (Span.point 0 0 0)).isOk = false := by
  refine ⟨by decide, by decide⟩

/-- C8: multiplicative operators bind tighter than additive ones, with
grouping overriding the precedence: `A ADDIUS B MULTIPLICA C` parses as
`A + (B * C)` with the Multiply node as the right child of Add, and
`(A ADDIUS B) MULTIPLICA C` parses as a Multiply node whose left child
is the grouped Add. -/
theorem c8_precedence_and_grouping :
    (do
      let toks ← tokenize "A ADDIUS B MULTIPLICA C"
      let r ← parseExpression toks
      pure r.1.shape) =
      .ok (.bin (.var "A") .Add (.bin (.var "B") .Multiply (.var "C"))) ∧
    (do
      let toks ← tokenize "(A ADDIUS B) MULTIPLICA C"
      let r ← parseExpression toks
      pure r.1.shape) =
      .ok (.bin (.group (.bin (.var "A") .Add (.var "B"))) .Multiply
        (.var "C")) := by
  refine ⟨by decide, by decide⟩

set_option maxHeartbeats 4000000 in
set_option maxRecDepth 4000 in
/-- Round trip holds on 1..=500 (checked by evaluation). -/
theorem rtChunk1 :
    ((List.range' 1 500).all fun k => roundTripOK k) = true := by decide

set_option maxHeartbeats 4000000 in
set_option maxRecDepth 4000 in
/-- Round trip holds on 501..=1000 (checked by evaluation). -/
theorem rtChunk2 :
    ((List.range' 501 500).all fun k => roundTripOK k) = true := by decide

set_option maxHeartbeats 4000000 in
set_option maxRecDepth 4000 in
/-- Round trip holds on 1001..=1500 (checked by evaluation). -/
theorem rtChunk3 :
    ((List.range' 1001 500).all fun k => roundTripOK k) = true := by decide

set_option maxHeartbeats 4000000 in
set_option maxRecDepth 4000 in
/-- Round trip holds on 1501..=2000 (checked by evaluation). -/
theorem rtChunk4 :
    ((List.range' 1501 500).all fun k => roundTripOK k) = true := by decide

set_option maxHeartbeats 4000000 in
set_option maxRecDepth 4000 in
/-- Round trip holds on 2001..=2500 (checked by evaluation). -/
theorem rtChunk5 :
    ((List.range' 2001 500).all fun k => roundTripOK k) = true := by decide

set_option maxHeartbeats 4000000 in
set_option maxRecDepth 4000 in
/-- Round trip holds on 2501..=3000 (checked by evaluation). -/
theorem rtChunk6 :
    ((List.range' 2501 500).all fun k => roundTripOK k) = true := by decide

set_option maxHeartbeats 4000000 in
set_option maxRecDepth 4000 in
/-- Round trip holds on 3001..=3500 (checked by evaluation). -/
theorem rtChunk7 :
    ((List.range' 3001 500).all fun k => roundTripOK k) = true := by decide

set_option maxHeartbeats 4000000 in
set_option maxRecDepth 4000 in
/-- Round trip holds on 3501..=3999 (checked by evaluation). -/
theorem rtChunk8 :
    ((List.range' 3501 499).all fun k => roundTripOK k) = true := by decide

/-- The round-trip check passes on the whole representable range. -/
theorem roundTripOK_true (n : Int) (h1 : 1 ≤ n) (h2 : n ≤ 3999) :
    roundTripOK n = true := by
  obtain ⟨k, rfl⟩ : ∃ k : Nat, n = (k : Int) := ⟨n.toNat, by omega⟩
  have hk1 : 1 ≤ k := by exact_mod_cast h1
  have hk2 : k ≤ 3999 := by exact_mod_cast h2
  have hmem : ∀ lo len : Nat, lo ≤ k → k < lo + len →
      ((List.range' lo len).all fun m => roundTripOK m) = true →
      roundTripOK k = true := by
    intro lo len hlo hhi hall
    have := List.all_eq_true.mp hall k (List.mem_range'_1.mpr ⟨hlo, hhi⟩)
    simpa using this
  by_cases hc1 : k < 501
  · exact hmem 1 500 hk1 (by omega) rtChunk1
  · by_cases hc2 : k < 1001
    · exact hmem 501 500 (by omega) (by omega) rtChunk2
    · by_cases hc3 : k < 1501
      · exact hmem 1001 500 (by omega) (by omega) rtChunk3
      · by_cases hc4 : k < 2001
        · exact hmem 1501 500 (by omega) (by omega) rtChunk4
        · by_cases hc5 : k < 2501
          · exact hmem 2001 500 (by omega) (by omega) rtChunk5
          · by_cases hc6 : k < 3001
            · exact hmem 2501 500 (by omega) (by omega) rtChunk6
            · by_cases hc7 : k < 3501
              · exact hmem 3001 500 (by omega) (by omega) rtChunk7
              · exact hmem 3501 499 (by omega) (by omega) rtChunk8

/-- C2: for every integer n with 1 ≤ n ≤ 3999, `to_roman` succeeds and
`from_roman` maps its output back to n — decode is a left inverse of
encode on the whole representable range. -/
theorem c2_round_trip (n : Int) (h1 : 1 ≤ n) (h2 : n ≤ 3999) :
    ∃ s, toRoman n = .ok s ∧ fromRoman s = .ok n := by
  have hb := roundTripOK_true n h1 h2
  unfold roundTripOK at hb
  cases ht : toRoman n with
  | ok s =>
    rw [ht] at hb
    simp only [decide_eq_true_eq] at hb
    exact ⟨s, rfl, hb⟩
  | error e =>
    rw [ht] at hb
    simp at hb

/-- Witness for C2: the round trip at 1999 (whose encoding is
"MCMXCIX"). -/
theorem c2_round_trip_witness :
    (1 : Int) ≤ 1999 ∧ (1999 : Int) ≤ 3999 ∧
    ∃ s, toRoman 1999 = .ok s ∧ fromRoman s = .ok 1999 :=
  ⟨by decide, by decide, c2_round_trip 1999 (by decide) (by decide)⟩

/-- C5: the environment enforces declare-once / assign-if-exists:
declaring a present name fails with the already-declared error (and the
original binding remains readable), assigning an absent name fails with
the undefined-variable error, and reading an absent name fails with the
undefined-variable error.  The checks precede any insertion, so a
failing operation never changes the store. -/
theorem c5_environment_invariants (env : Environment) (name : String)
    (v0 v : Value) :
    (env.vars name = some v0 →
      env.declare name v = .error (.VariableAlreadyDeclared name) ∧
      env.get name = .ok v0) ∧
    (env.vars name = none →
      env.assign name v = .error (.UndefinedVariable name)) ∧
    (env.vars name = none →
      env.get name = .error (.UndefinedVariable name)) := by
  refine ⟨fun h => ⟨?_, ?_⟩, fun h => ?_, fun h => ?_⟩
  · simp [Environment.declare, Environment.contains, h]
  · simp [Environment.get, h]
  · simp [Environment.assign, Environment.contains, h]
  · simp [Environment.get, h]

/-- Witness for C5: in an environment binding X to 42, redeclaring X
fails and X still reads as 42. -/
theorem c5_environment_invariants_witness :
    sampleEnv.declare "X" (.Number 7) =
      .error (.VariableAlreadyDeclared "X") ∧
    sampleEnv.get "X" = .ok (.Number 42) :=
  (c5_environment_invariants sampleEnv "X" (.Number 42) (.Number 7)).1
    (by decide)

/-- C6: Add never produces a type mismatch: Number+Number is
overflow-checked with the error carrying the exact wider-precision sum,
String+String concatenates, and the mixed cases render the number as
its Roman numeral when it lies in 1..=3999 and as its decimal digits
otherwise, concatenating in operand order. -/
theorem c6_add_semantics (l r : Value) (sp : Span) :
    (∀ op expd sp',
      applyBinary .Add l r sp ≠ .error (.TypeMismatch op expd sp')) ∧
    (∀ a b : Int, l = .Number a → r = .Number b →
      fitsI32 a → fitsI32 b →
      applyBinary .Add l r sp =
        if fitsI32 (a + b) then .ok (.Number (a + b))
        else .error (.IntegerOverflow (a + b))) ∧
    (∀ sa sb, l = .String sa → r = .String sb →
      applyBinary .Add l r sp = .ok (.String (sa ++ sb))) ∧
    (∀ a sb, l = .Number a → r = .String sb →
      (1 ≤ a → a ≤ 3999 → ∃ s, toRoman a = .ok s ∧
        applyBinary .Add l r sp = .ok (.String (s ++ sb))) ∧
      (a ≤ 0 ∨ 3999 < a →
        applyBinary .Add l r sp = .ok (.String (toString a ++ sb)))) ∧
    (∀ sa b, l = .String sa → r = .Number b →
      (1 ≤ b → b ≤ 3999 → ∃ s, toRoman b = .ok s ∧
        applyBinary .Add l r sp = .ok (.String (sa ++ s))) ∧
      (b ≤ 0 ∨ 3999 < b →
        applyBinary .Add l r sp = .ok (.String (sa ++ toString b)))) := by
  have hdisp : ∀ c : Int, c ≤ 0 ∨ 3999 < c →
      numToDisplayString c = toString c := by
    intro c hc
    unfold numToDisplayString toRoman
    rcases hc with hc | hc
    · rw [if_pos hc]
    · rw [if_neg (by omega), if_pos (by omega)]
  have hrom : ∀ c : Int, 1 ≤ c → c ≤ 3999 →
      numToDisplayString c = toRomanGo ROMAN_VALUES c := by
    intro c h1 h2
    unfold numToDisplayString
    rw [toRoman_ok_of_range h1 h2]
  refine ⟨?_, ?_, ?_, ?_, ?_⟩
  · intro op expd sp'
    cases l with
    | Number a =>
      cases r with
      | Number b => cases hc : checkedAdd a b <;> simp [applyBinary, hc]
      | String sb => simp [applyBinary]
    | String sa =>
      cases r with
      | Number b => simp [applyBinary]
      | String sb => simp [applyBinary]
  · rintro a b rfl rfl _ _
    by_cases hf : fitsI32 (a + b)
    · simp [applyBinary, checkedAdd, hf]
    · simp [applyBinary, checkedAdd, hf]
  · rintro sa sb rfl rfl
    simp [applyBinary]
  · rintro a sb rfl rfl
    refine ⟨fun h1 h2 => ?_, fun h => ?_⟩
    · exact ⟨_, toRoman_ok_of_range h1 h2,
        by simp [applyBinary, hrom a h1 h2]⟩
    · simp [applyBinary, hdisp a h]
  · rintro sa b rfl rfl
    refine ⟨fun h1 h2 => ?_, fun h => ?_⟩
    · exact ⟨_, toRoman_ok_of_range h1 h2,
        by simp [applyBinary, hrom b h1 h2]⟩
    · simp [applyBinary, hdisp b h]

/-- Witness for C6: 2000000000 ADDIUS 2000000000 overflows `i32` and
the error carries the exact sum 4000000000. -/
theorem c6_add_semantics_witness :
    applyBinary .Add (.Number 2000000000) (.Number 2000000000)
      (Span.point 0 0 0) = .error (.IntegerOverflow 4000000000) := by
  have h :=
    (c6_add_semantics (.Number 2000000000) (.Number 2000000000)
      (Span.point 0 0 0)).2.1 2000000000 2000000000 rfl rfl
      (by decide) (by decide)
  exact h.trans (by decide)

/-- C7: output conversion passes strings through unchanged, rejects
non-positive numbers with the dedicated error and numbers above 3999
with the Roman-overflow error, and renders in-range numbers via
`to_roman`; consequently the Arabic literal 0 lexes successfully while
printing a variable holding 0 fails at output-conversion time. -/
theorem c7_output_conversion :
    (∀ s, (Value.String s).toOutputString = .ok s) ∧
    (∀ n : Int, n ≤ 0 →
      (Value.Number n).toOutputString =
        .error (.NegativeRomanConversion n)) ∧
    (∀ n : Int, 3999 < n →
      (Value.Number n).toOutputString = .error (.RomanOverflow n)) ∧
    (∀ n : Int, 1 ≤ n → n ≤ 3999 → ∃ s,
      toRoman n = .ok s ∧ (Value.Number n).toOutputString = .ok s) ∧
    tokenize "0" =
      .ok [⟨.ArabicLiteral 0, ⟨0, 1, 1, 1⟩, "0"⟩,
           ⟨.Eof, Span.point 1 1 2, ""⟩] ∧
    runSource "DECLARA X EST 0\nSCRIBE(X)" =
      .error (.NegativeRomanConversion 0) := by
  refine ⟨fun s => rfl, fun n h => ?_, fun n h => ?_,
    fun n h1 h2 => ?_, by decide, by decide⟩
  · simp [Value.toOutputString, h]
  · simp only [Value.toOutputString]
    rw [if_neg (by omega), if_pos (by omega)]
  · have ht := toRoman_ok_of_range h1 h2
    refine ⟨_, ht, ?_⟩
    simp only [Value.toOutputString]
    rw [if_neg (by omega), if_neg (by omega), ht]

/-- Witness for C7: the number 0 cannot be converted for output. -/
theorem c7_output_conversion_witness :
    (Value.Number 0).toOutputString =
      .error (.NegativeRomanConversion 0) :=
  c7_output_conversion.2.1 0 (by decide)

/-- C9: a non-keyword name is classified as a Roman numeral literal
carrying the decoded value exactly when it is at least 2 characters
long, consists only of the letters I V X L C D M, and `from_roman`
accepts it; otherwise it becomes an identifier.  Concretely, lexing
"I V X L C D M" yields seven identifier tokens and lexing
"II IV IX XIV XLII MCMXCIX" yields numeral tokens with values
2, 4, 9, 14, 42, 1999. -/
theorem c9_roman_identifier_disambiguation :
    (∀ lexeme : String, lexeme ∉ keywordNames →
      classifyName lexeme =
        if 2 ≤ lexeme.length ∧ looksLikeRoman lexeme then
          match fromRoman lexeme with
          | .ok value => .RomanLiteral value
          | .error _ => .Identifier lexeme
        else .Identifier lexeme) ∧
    Except.map (List.map Token.kind) (tokenize "I V X L C D M") =
      .ok [.Identifier "I", .Identifier "V", .Identifier "X",
           .Identifier "L", .Identifier "C", .Identifier "D",
           .Identifier "M", .Eof] ∧
    Except.map (List.map Token.kind)
        (tokenize "II IV IX XIV XLII MCMXCIX") =
      .ok [.RomanLiteral 2, .RomanLiteral 4, .RomanLiteral 9,
           .RomanLiteral 14, .RomanLiteral 42, .RomanLiteral 1999,
           .Eof] := by
  refine ⟨fun lexeme h => ?_, by decide, by decide⟩
  simp only [keywordNames, List.mem_cons, List.mem_singleton] at h
  push_neg at h
  obtain ⟨h1, h2, h3, h4, h5, h6, h7, h8, h9, h10, h11⟩ := h
  simp [classifyName, h1, h2, h3, h4, h5, h6, h7, h8, h9, h10, h11]

/-- Witness for C9: the non-keyword name "XLII" is classified as the
Roman literal 42. -/
theorem c9_roman_identifier_disambiguation_witness :
    classifyName "XLII" = .RomanLiteral 42 := by
  have h := c9_roman_identifier_disambiguation.1 "XLII" (by decide)
  exact h.trans (by decide)

/-- C10: a single statement changes at most the binding it names:
a successful Declaration or Assignment of a name leaves every other
binding unchanged, a successful Print leaves the whole environment
unchanged, and Avtem and Comment return the interpreter state as is.
(Expression evaluation takes the environment read-only — `&self` in
Rust, a plain argument in the model — so it cannot modify it.) -/
theorem c10_statement_frame (st : InterpState) :
    (∀ name expr sp st',
      executeStatement st (.Declaration name expr sp) = .ok st' →
      ∀ y, y ≠ name → st'.env.vars y = st.env.vars y) ∧
    (∀ name expr sp st',
      executeStatement st (.Assignment name expr sp) = .ok st' →
      ∀ y, y ≠ name → st'.env.vars y = st.env.vars y) ∧
    (∀ expr sp st',
      executeStatement st (.Print expr sp) = .ok st' →
      st'.env = st.env) ∧
    (∀ sp, executeStatement st (.Avtem sp) = .ok st) ∧
    (∀ text sp, executeStatement st (.Comment text sp) = .ok st) := by
  refine ⟨?_, ?_, ?_, fun sp => rfl, fun text sp => rfl⟩
  · intro name expr sp st' h y hy
    simp only [executeStatement] at h
    cases hv : evaluateExpression st.env expr with
    | ok v =>
      rw [hv] at h
      simp only [EvalResult.bind_ok] at h
      unfold Environment.declare at h
      by_cases hc : st.env.contains name
      · rw [if_pos hc] at h
        simp [EvalResult.ofExcept] at h
      · rw [if_neg hc] at h
        simp only [EvalResult.ofExcept, EvalResult.bind_ok,
          EvalResult.pure_eq, EvalResult.ok.injEq] at h
        subst h
        simp [hy]
    | error e =>
      rw [hv] at h
      simp at h
    | panicked =>
      rw [hv] at h
      simp at h
  · intro name expr sp st' h y hy
    simp only [executeStatement] at h
    cases hv : evaluateExpression st.env expr with
    | ok v =>
      rw [hv] at h
      simp only [EvalResult.bind_ok] at h
      unfold Environment.assign at h
      by_cases hc : st.env.contains name
      · rw [if_neg (by simp [hc])] at h
        simp only [EvalResult.ofExcept, EvalResult.bind_ok,
          EvalResult.pure_eq, EvalResult.ok.injEq] at h
        subst h
        simp [hy]
      · rw [if_pos (by simp [hc])] at h
        simp [EvalResult.ofExcept] at h
    | error e =>
      rw [hv] at h
      simp at h
    | panicked =>
      rw [hv] at h
      simp at h
  · intro expr sp st' h
    simp only [executeStatement] at h
    cases hv : evaluateExpression st.env expr with
    | ok v =>
      rw [hv] at h
      simp only [EvalResult.bind_ok] at h
      cases ho : v.toOutputString with
      | ok out =>
        rw [ho] at h
        simp only [EvalResult.ofExcept, EvalResult.bind_ok,
          EvalResult.pure_eq, EvalResult.ok.injEq] at h
        subst h
        rfl
      | error e =>
        rw [ho] at h
        simp [EvalResult.ofExcept] at h
    | error e =>
      rw [hv] at h
      simp at h
    | panicked =>
      rw [hv] at h
      simp at h

/-- Witness for C10: declaring X in a fresh interpreter leaves the
binding of Y untouched. -/
theorem c10_statement_frame_witness :
    (InterpState.mk
      ⟨fun k => if k = "X" then some (Value.Number 1)
        else Environment.new.vars k⟩ []).env.vars "Y" =
    (InterpState.mk Environment.new []).env.vars "Y" :=
  (c10_statement_frame ⟨Environment.new, []⟩).1 "X"
    (.NumberLiteral 1 .Arabic (Span.point 0 0 0)) (Span.point 0 0 0)
    ⟨⟨fun k => if k = "X" then some (Value.Number 1)
      else Environment.new.vars k⟩, []⟩ rfl "Y" (by decide)

end Numerus
